import Mathlib

/- Formal model of the remote-execution and pod-lifecycle synchronization layer
of the warnet repository (src/warnet/k8s.py), as a shallow embedding in Lean.
Remote side effects (Kubernetes API calls, exec streams, shell commands) are
modelled by an explicit environment record saying which step succeeds and what
output each stream delivers; each Python function becomes a Lean function from
its arguments and that environment to its return value plus an ordered trace of
the side-effecting steps it performed. -/

namespace Warnet

/-! ### write_file_to_container (k8s.py lines 602-659) -/

/-- Environment for one call of write_file_to_container: which of the four
side-effecting actions (open the receive exec stream, write_stdin, close,
open the rename exec stream) completes without raising an exception. -/
structure ExecEnv where
  openRecvOk : Bool
  writeOk : Bool
  closeOk : Bool
  renameOk : Bool
deriving DecidableEq

/-- One observable step of write_file_to_container: opening an exec session
with a given command vector (and whether stdin is enabled on it), writing a
payload to the open stream, or closing the stream. -/
inductive WStep
  | openExec (cmd : List String) (stdinEnabled : Bool)
  | writeStdin (payload : String)
  | closeStream
deriving DecidableEq

/-- Receive command built at k8s.py line 626: sh -c with the f-string
"cat > {dst_path}.tmp && sync". -/
def exec_command (dst_path : String) : List String :=
  ["sh", "-c", "cat > " ++ dst_path ++ ".tmp && sync"]

/-- Rename command built at k8s.py line 642: sh -c with the f-string
"mv {dst_path}.tmp {dst_path}". -/
def rename_command (dst_path : String) : List String :=
  ["sh", "-c", "mv " ++ dst_path ++ ".tmp " ++ dst_path]

/-- Model of write_file_to_container (k8s.py lines 602-659). The whole body
sits in one try block; the first raising step aborts the pipeline, the
exception handler prints a message, and the function then falls off its end,
implicitly returning None (modelled as Option.none). On full success it
returns True. The trace records the steps that completed, in order. -/
def write_file_to_container (dst_path data : String) (env : ExecEnv) :
    Option Bool × List WStep :=
  if env.openRecvOk then
    if env.writeOk then
      if env.closeOk then
        if env.renameOk then
          (some true,
           [WStep.openExec (exec_command dst_path) true, WStep.writeStdin data,
            WStep.closeStream, WStep.openExec (rename_command dst_path) false])
        else
          (none,
           [WStep.openExec (exec_command dst_path) true, WStep.writeStdin data,
            WStep.closeStream])
      else
        (none, [WStep.openExec (exec_command dst_path) true, WStep.writeStdin data])
    else
      (none, [WStep.openExec (exec_command dst_path) true])
  else
    (none, [])

/-! ### find command construction in snapshot_bitcoin_datadir (k8s.py lines 344-364) -/

/-- Tokens appended by the loop over filters[1:] at k8s.py lines 359-360:
each remaining filter contributes ["-o", "-name", f]. -/
def nameToks : List String → List String
  | [] => []
  | f :: fs => "-o" :: "-name" :: f :: nameToks fs

/-- The find command vector built at k8s.py lines 344-364: with a non-empty
filter list, a type group (files or directories) and a name group joining the
patterns with -o; with no filters, a bare find over the chain base directory. -/
def find_command (chain : String) (filters : List String) : List String :=
  match filters with
  | [] => ["find", "/root/.bitcoin/" ++ chain]
  | f0 :: rest =>
    ["find", "/root/.bitcoin/" ++ chain, "(", "-type", "f", "-o", "-type", "d", ")",
     "(", "-name", f0] ++ nameToks rest ++ [")"]

/-- Expression tree of the external find tool, restricted to the primaries the
generated commands use: -type tests, -name tests, grouping, implicit and,
and -o. This models the semantics of the external find binary the pipeline
invokes, so that the generated command vector can be interpreted. -/
inductive FExpr
  | tt
  | typeIs (t : String)
  | nameIs (p : String)
  | conj (a b : FExpr)
  | disj (a b : FExpr)
deriving DecidableEq

mutual

/-- Parser for one find primary: a parenthesized group, -type t, or -name p.
Fuel bounds the recursion depth. -/
def parseAtom : Nat → List String → Option (FExpr × List String)
  | 0, _ => none
  | _ + 1, [] => none
  | fuel + 1, t :: rest =>
    if t = "(" then
      match parseOr fuel rest with
      | some (e, r0 :: r2) => if r0 = ")" then some (e, r2) else none
      | _ => none
    else if t = "-type" then
      match rest with
      | ty :: r2 => some (FExpr.typeIs ty, r2)
      | [] => none
    else if t = "-name" then
      match rest with
      | p :: r2 => some (FExpr.nameIs p, r2)
      | [] => none
    else none

/-- Parser loop for the implicit-and level: keeps absorbing primaries until a
closing parenthesis, an -o, or the end of input. -/
def parseAndMore : Nat → FExpr → List String → Option (FExpr × List String)
  | 0, _, _ => none
  | _ + 1, acc, [] => some (acc, [])
  | fuel + 1, acc, t :: rest =>
    if t = ")" ∨ t = "-o" then some (acc, t :: rest)
    else
      match parseAtom fuel (t :: rest) with
      | some (e, r2) => parseAndMore fuel (FExpr.conj acc e) r2
      | none => none

/-- Parser for the implicit-and level of the find expression grammar. -/
def parseAnd : Nat → List String → Option (FExpr × List String)
  | 0, _ => none
  | fuel + 1, toks =>
    match parseAtom fuel toks with
    | some (e, r2) => parseAndMore fuel e r2
    | none => none

/-- Parser loop for the -o level: folds further -o operands into a
left-nested disjunction. -/
def parseOrMore : Nat → FExpr → List String → Option (FExpr × List String)
  | 0, _, _ => none
  | _ + 1, acc, [] => some (acc, [])
  | fuel + 1, acc, t :: rest =>
    if t = "-o" then
      match parseAnd fuel rest with
      | some (e, r2) => parseOrMore fuel (FExpr.disj acc e) r2
      | none => none
    else some (acc, t :: rest)

/-- Parser for the -o (lowest precedence) level of the find expression
grammar. -/
def parseOr : Nat → List String → Option (FExpr × List String)
  | 0, _ => none
  | fuel + 1, toks =>
    match parseAnd fuel toks with
    | some (e, r2) => parseOrMore fuel e r2
    | none => none

end

/-- Evaluation of a find expression against one entry walked under the base
directory. The bitcoin data directory holds regular files and directories,
the only kinds the generated tests distinguish, so an entry is described by
whether it is a directory (isDirE, otherwise a regular file) and its base
name nm; matchName is the shell-pattern matcher of the external find tool. -/
def evalF (matchName : String → String → Bool) (isDirE : Bool) (nm : String) :
    FExpr → Bool
  | FExpr.tt => true
  | FExpr.typeIs t => if t = "f" then !isDirE else if t = "d" then isDirE else false
  | FExpr.nameIs p => matchName p nm
  | FExpr.conj a b => evalF matchName isDirE nm a && evalF matchName isDirE nm b
  | FExpr.disj a b => evalF matchName isDirE nm a || evalF matchName isDirE nm b

/-- Whether the given find command vector selects an entry walked under its
base directory: the tokens after the base path are parsed with the find
grammar and evaluated on the entry; an empty expression selects everything.
Returns none if the tokens do not parse (never the case for the commands the
pipeline builds, as proved below). -/
def findCmdSelects (matchName : String → String → Bool) (cmd : List String)
    (isDirE : Bool) (nm : String) : Option Bool :=
  match cmd with
  | "find" :: _ :: exprToks =>
    match exprToks with
    | [] => some true
    | _ :: _ =>
      match parseOr (3 * exprToks.length + 3) exprToks with
      | some (e, []) => some (evalF matchName isDirE nm e)
      | _ => none
  | _ => none

/-! ### Python string and posix path helpers used by the snapshot pipeline.
These model the Python standard library functions the source calls:
str.strip, str.split, os.path.relpath (posixpath) with its normpath, join and
commonprefix helpers. -/

/-- Model of Python str.isspace for the ASCII whitespace characters stripped
by str.strip. -/
def pyIsSpace (c : Char) : Bool :=
  c == ' ' || c == '\t' || c == '\n' || c == '\r' || c == '\x0b' || c == '\x0c'

/-- Model of dropping trailing characters satisfying p. -/
def dropTail (p : Char → Bool) (cs : List Char) : List Char :=
  (cs.reverse.dropWhile p).reverse

/-- Model of Python str.strip with no argument: whitespace removed from both
ends. -/
def pystrip (s : String) : String :=
  String.mk (dropTail pyIsSpace (s.data.dropWhile pyIsSpace))

/-- Model of Python str.split with an explicit one-character separator: keeps
empty pieces, and the empty string yields one empty piece. -/
def charSplit (sep : Char) : List Char → List (List Char)
  | [] => [[]]
  | c :: rest =>
    if c = sep then [] :: charSplit sep rest
    else
      match charSplit sep rest with
      | [] => [[c]]
      | p :: ps => (c :: p) :: ps

/-- String-level wrapper of charSplit. -/
def pySplitChar (sep : Char) (s : String) : List String :=
  (charSplit sep s.data).map String.mk

/-- Model of Python os.path.isabs on posix: the path starts with a slash. -/
def isabs (s : String) : Bool :=
  match s.data with
  | [] => false
  | c :: _ => c == '/'

/-- Number of leading slashes kept by posixpath.normpath: one, or exactly two
when the path starts with two (but not three) slashes. -/
def initSlashes (cs : List Char) : Nat :=
  match cs with
  | '/' :: '/' :: '/' :: _ => 1
  | '/' :: '/' :: _ => 2
  | '/' :: _ => 1
  | _ => 0

/-- One step of the posixpath.normpath component loop. -/
def normStep (slashes : Nat) (acc : List (List Char)) (comp : List Char) :
    List (List Char) :=
  if comp = [] ∨ comp = ['.'] then acc
  else if comp ≠ ['.', '.'] ∨ (slashes = 0 ∧ acc = [])
      ∨ (acc ≠ [] ∧ acc.getLast? = some ['.', '.']) then acc ++ [comp]
  else if acc ≠ [] then acc.dropLast
  else acc

/-- Model of joining path components with a separator character, as
posixpath.join does for components that contain no slash. -/
def joinChars (sep : Char) : List (List Char) → List Char
  | [] => []
  | [x] => x
  | x :: xs => x ++ sep :: joinChars sep xs

/-- Model of posixpath.normpath over the character list of a path. -/
def normpathChars (cs : List Char) : List Char :=
  if cs = [] then ['.']
  else
    let slashes := initSlashes cs
    let nc := (charSplit '/' cs).foldl (normStep slashes) []
    let p := List.replicate slashes '/' ++ joinChars '/' nc
    if p = [] then ['.'] else p

/-- Model of posixpath.join for two operands. -/
def pyjoin2 (a b : String) : String :=
  if isabs b then b
  else if a = "" ∨ a.data.getLast? = some '/' then String.mk (a.data ++ b.data)
  else String.mk (a.data ++ '/' :: b.data)

/-- Model of posixpath.abspath; a relative path is joined onto the process
working directory cwd before normalization. -/
def abspath (cwd s : String) : String :=
  if isabs s then String.mk (normpathChars s.data)
  else String.mk (normpathChars (pyjoin2 cwd s).data)

/-- Model of the length of os.path.commonprefix for two component lists. -/
def commonLead : List (List Char) → List (List Char) → Nat
  | a :: as, b :: bs => if a = b then commonLead as bs + 1 else 0
  | _, _ => 0

/-- Model of posixpath.relpath. Python raises ValueError on an empty path;
the snapshot call site filters blank entries first, so that case is modelled
as an inert empty string. -/
def relpath (cwd path start : String) : String :=
  if path = "" then ""
  else
    let sa := (charSplit '/' (abspath cwd start).data).filter (fun x => x ≠ [])
    let pa := (charSplit '/' (abspath cwd path).data).filter (fun x => x ≠ [])
    let i := commonLead sa pa
    let rel := List.replicate (sa.length - i) ['.', '.'] ++ pa.drop i
    if rel = [] then "." else String.mk (joinChars '/' rel)

/-! ### tar command construction in snapshot_bitcoin_datadir (k8s.py 390-393) -/

/-- The tar command vector built at k8s.py lines 390-393: a fixed five-token
head (tar -czf /tmp/bitcoin_data.tar.gz -C base) followed by, for every
non-blank entry of the find output list, its path relative to the chain base
directory. -/
def tar_command (chain : String) (file_list : List String) (cwd : String) :
    List String :=
  ["tar", "-czf", "/tmp/bitcoin_data.tar.gz", "-C", "/root/.bitcoin/" ++ chain]
  ++ (file_list.filter (fun f => pystrip f ≠ "")).map
      (fun f => relpath cwd f ("/root/.bitcoin/" ++ chain))

/-- Parsing of the find stdout chunks at k8s.py lines 378-382: each chunk
read from the stream is stripped and split on newlines, and the pieces are
appended to the file list in arrival order. -/
def parseFindOutput : List String → List String
  | [] => []
  | c :: cs => pySplitChar '\n' (pystrip c) ++ parseFindOutput cs

/-! ### snapshot_bitcoin_datadir (k8s.py lines 315-436) -/

/-- Environment for one call of snapshot_bitcoin_datadir. clientOk models the
namespace resolution and kubeconfig loading at k8s.py lines 332-333, which
run before the try block; the remaining flags say whether each side-effecting
step inside the try block completes without raising: the pod lookup, the find
exec session (findChunks being the stdout chunks it delivers), the tar exec
session (a tar process that merely writes to stderr still counts as Ok, since
its exit status is never inspected), the kubectl cp copy (copyOk is the
truthiness of stream_command), and the cleanup exec session. -/
structure SnapEnv where
  clientOk : Bool
  podReadOk : Bool
  findOk : Bool
  findChunks : List String
  tarOk : Bool
  copyOk : Bool
  cleanupOk : Bool
deriving DecidableEq

/-- Termination mode of a modelled Python call: a normal return of None, or
an exception propagating out of the function. -/
inductive PyResult
  | retNone
  | raised
deriving DecidableEq

/-- Observable events of snapshot_bitcoin_datadir, in program order: the pod
lookup, each exec session or local command with its command vector, and the
user-visible prints that matter to its outcome reporting (the no-match
notice, the success notice, the untar hint, and the catch-all error print).
Stderr relaying prints are omitted: they carry no control flow. -/
inductive SnapEvent
  | readPod
  | execFind (cmd : List String)
  | printNothing
  | execTar (cmd : List String)
  | runCopy (cmd : String)
  | printSuccess (path : String)
  | execCleanup (cmd : List String)
  | printHint (path : String) (chain : String)
  | printError
deriving DecidableEq

/-- The cleanup command vector at k8s.py line 420. -/
def cleanup_command : List String := ["rm", "/tmp/bitcoin_data.tar.gz"]

/-- The local archive path built at k8s.py line 412 with pathlib: Path of
local_path joined with the pod-named archive file. Pathlib normalization of
the left operand (such as dropping a leading ./) is not reproduced; only the
join itself, which no proved property depends on. -/
def local_file_path (local_path pod_name : String) : String :=
  if local_path = "" ∨ local_path.data.getLast? = some '/'
  then local_path ++ (pod_name ++ "_bitcoin_data.tar.gz")
  else local_path ++ "/" ++ (pod_name ++ "_bitcoin_data.tar.gz")

/-- The kubectl cp command string built at k8s.py lines 413-415. -/
def copy_command (nsName pod_name lfp : String) : String :=
  "kubectl cp " ++ nsName ++ "/" ++ pod_name ++ ":/tmp/bitcoin_data.tar.gz " ++ lfp

/-- Model of snapshot_bitcoin_datadir (k8s.py lines 315-436). nsName is the
resolved namespace and cwd the process working directory consulted by
os.path.relpath. Everything from the pod lookup onward runs inside one try
block whose handler prints an error message and falls through, so the
function returns None on every path once the client is acquired; a failure
acquiring the client (before the try) propagates. The copy failure raises at
line 417, reaching the handler before the cleanup exec at lines 420-430. -/
def snapshot_bitcoin_datadir (pod_name chain local_path : String)
    (filters : List String) (nsName cwd : String) (env : SnapEnv) :
    PyResult × List SnapEvent :=
  if env.clientOk then
    if env.podReadOk then
      let fc := find_command chain filters
      if env.findOk then
        let file_list := parseFindOutput env.findChunks
        if file_list.isEmpty then
          (PyResult.retNone, [SnapEvent.readPod, SnapEvent.execFind fc,
            SnapEvent.printNothing])
        else
          let tc := tar_command chain file_list cwd
          if env.tarOk then
            let lfp := local_file_path local_path pod_name
            let cc := copy_command nsName pod_name lfp
            if env.copyOk then
              if env.cleanupOk then
                (PyResult.retNone, [SnapEvent.readPod, SnapEvent.execFind fc,
                  SnapEvent.execTar tc, SnapEvent.runCopy cc,
                  SnapEvent.printSuccess lfp, SnapEvent.execCleanup cleanup_command,
                  SnapEvent.printHint lfp chain])
              else
                (PyResult.retNone, [SnapEvent.readPod, SnapEvent.execFind fc,
                  SnapEvent.execTar tc, SnapEvent.runCopy cc,
                  SnapEvent.printSuccess lfp, SnapEvent.execCleanup cleanup_command,
                  SnapEvent.printError])
            else
              (PyResult.retNone, [SnapEvent.readPod, SnapEvent.execFind fc,
                SnapEvent.execTar tc, SnapEvent.runCopy cc, SnapEvent.printError])
          else
            (PyResult.retNone, [SnapEvent.readPod, SnapEvent.execFind fc,
              SnapEvent.execTar tc, SnapEvent.printError])
      else
        (PyResult.retNone, [SnapEvent.readPod, SnapEvent.execFind fc,
          SnapEvent.printError])
    else
      (PyResult.retNone, [SnapEvent.readPod, SnapEvent.printError])
  else
    (PyResult.raised, [])

/-- Test for the cleanup exec event, used to state which runs attempt the
remote temporary archive removal. -/
def isCleanup : SnapEvent → Bool
  | SnapEvent.readPod => false
  | SnapEvent.execFind _ => false
  | SnapEvent.printNothing => false
  | SnapEvent.execTar _ => false
  | SnapEvent.runCopy _ => false
  | SnapEvent.printSuccess _ => false
  | SnapEvent.execCleanup _ => true
  | SnapEvent.printHint _ _ => false
  | SnapEvent.printError => false

/-- Test for the local copy event. -/
def isRunCopy : SnapEvent → Bool
  | SnapEvent.readPod => false
  | SnapEvent.execFind _ => false
  | SnapEvent.printNothing => false
  | SnapEvent.execTar _ => false
  | SnapEvent.runCopy _ => true
  | SnapEvent.printSuccess _ => false
  | SnapEvent.execCleanup _ => false
  | SnapEvent.printHint _ _ => false
  | SnapEvent.printError => false

/-! ### watch-based readiness waiters (k8s.py lines 439-521) -/

/-- Condition entry of a pod status, with its type and status strings. -/
structure PodCondition where
  type : String
  status : String
deriving DecidableEq

/-- Init container status entry: whether its state has a truthy running
sub-state. -/
structure InitStatus where
  running : Bool
deriving DecidableEq

/-- Pod status as consumed by the waiters: the phase string, the optional
condition list (None until populated), and the optional init container status
list (None until populated). -/
structure PodStatus where
  phase : String
  conditions : Option (List PodCondition)
  init_container_statuses : Option (List InitStatus)
deriving DecidableEq

/-- Pod object carried by a watch event: its metadata name and status. -/
structure PodM where
  name : String
  status : PodStatus
deriving DecidableEq

/-- Test of an optional value: false when absent, q of the value when
present; this is the Python pattern of testing a possibly-None lookup result
and then a field of it. -/
def optTest {α : Type} (q : α → Bool) : Option α → Bool
  | some c => q c
  | none => false

/-- The per-event readiness test of wait_for_pod_ready (k8s.py lines
456-460): name matches, phase is Running, and the first condition of type
Ready has status True (conditions defaulting to the empty list when None). -/
def readyPred (name : String) (pod : PodM) : Bool :=
  pod.name == name && pod.status.phase == "Running" &&
    optTest (fun c => c.status == "True")
      ((pod.status.conditions.getD []).find? (fun c => c.type == "Ready"))

/-- Model of wait_for_pod_ready (k8s.py lines 439-464). The event list is the
bounded sequence the watch delivers before its timeout_seconds budget ends;
the result is the returned boolean together with the number of events
consumed (the watch is stopped on a match, so later events are not
consumed; on exhaustion the timeout message is printed and False returned). -/
def wait_for_pod_ready : String → List PodM → Bool × Nat
  | _, [] => (false, 0)
  | name, e :: rest =>
    if readyPred name e then (true, 1)
    else
      let r := wait_for_pod_ready name rest
      (r.1, r.2 + 1)

/-- The pod name substring that identifies the ingress controller pod
(k8s.py line 519). -/
def ingressSub : String := "ingress-nginx-controller"

/-- Model of the Python in operator on strings: pat occurs as a contiguous
substring of hay. -/
def leadsChars : List Char → List Char → Bool
  | [], _ => true
  | _ :: _, [] => false
  | p :: ps, h :: hs => p == h && leadsChars ps hs

/-- Substring search over character lists. -/
def containsChars : List Char → List Char → Bool
  | [], pat => pat.isEmpty
  | h :: t, pat => leadsChars pat (h :: t) || containsChars t pat

/-- String-level substring containment, modelling the Python in operator. -/
def strContains (hay pat : String) : Bool := containsChars hay.data pat.data

/-- Model of wait_for_ingress_controller (k8s.py lines 506-521): list the
ingress namespace pods, and for the first whose name contains the controller
substring delegate to wait_for_pod_ready; with no match return False at once.
The second component is the number of watch events consumed, none meaning no
watch was ever opened. -/
def wait_for_ingress_controller (pods : List String) (events : List PodM) :
    Bool × Option Nat :=
  match pods.find? (fun p => strContains p ingressSub) with
  | some p => ((wait_for_pod_ready p events).1, some (wait_for_pod_ready p events).2)
  | none => (false, none)

/-- Whether a pod event has a populated (non-None, non-empty) init container
status list; k8s.py line 493 skips the event otherwise. -/
def initPopulated (e : PodM) : Bool :=
  match e.status.init_container_statuses with
  | none => false
  | some l => !l.isEmpty

/-- The per-event success test of wait_for_init (k8s.py lines 491-500): the
name matches, the init container statuses are populated, and some status has
a truthy running sub-state. -/
def initReadyEvent (pod_name : String) (e : PodM) : Bool :=
  e.name == pod_name && initPopulated e &&
    (e.status.init_container_statuses.getD []).any (fun s => s.running)

/-- The success message printed by wait_for_init at k8s.py line 498. -/
def initReadyMsg (pod_name nsName : String) : String :=
  "initContainer in pod " ++ pod_name ++ " (" ++ nsName ++ ") is ready"

/-- The timeout message printed by wait_for_init at k8s.py line 502. -/
def initTimeoutMsg (pod_name nsName : String) : String :=
  "Timeout waiting for initContainer in " ++ pod_name ++ " (" ++ nsName
    ++ ") to be ready."

/-- Model of wait_for_init (k8s.py lines 467-503): scan the bounded watch
event sequence; events for the named pod without populated init container
statuses are skipped; the first running init container status stops the
watch and returns True; exhaustion returns False. The second component
collects the messages printed, which the quiet flag suppresses. -/
def wait_for_init (pod_name nsName : String) (quiet : Bool) :
    List PodM → Bool × List String
  | [] => (false, if quiet then [] else [initTimeoutMsg pod_name nsName])
  | e :: rest =>
    if e.name == pod_name then
      match e.status.init_container_statuses with
      | none => wait_for_init pod_name nsName quiet rest
      | some l =>
        if l.isEmpty then wait_for_init pod_name nsName quiet rest
        else if l.any (fun s => s.running) then
          (true, if quiet then [] else [initReadyMsg pod_name nsName])
        else wait_for_init pod_name nsName quiet rest
    else wait_for_init pod_name nsName quiet rest

/-- Formalization of the claim-side readiness predicate for C5: the event
carries some condition of type Ready with status True (rather than the
first-found one the code checks). Under the platform invariant that
condition types are unique per pod, this coincides with readyPred, which is
how the claim is settled below. -/
def readyEventClaim (name : String) (pod : PodM) : Bool :=
  pod.name == name && pod.status.phase == "Running" &&
    (pod.status.conditions.getD []).any
      (fun c => c.type == "Ready" && c.status == "True")

end Warnet


namespace Warnet

/-- C1: on a successful call, the trace is exactly receive-into-tmp, full
payload to stdin, close, then rename; the receive command targets
dst ++ ".tmp", which differs from dst. -/
theorem writeFile_atomic_trace (dst data : String) (env : ExecEnv)
    (h : (write_file_to_container dst data env).1 = some true) :
    (write_file_to_container dst data env).2
      = [WStep.openExec (exec_command dst) true, WStep.writeStdin data,
         WStep.closeStream, WStep.openExec (rename_command dst) false]
    ∧ exec_command dst = ["sh", "-c", "cat > " ++ (dst ++ ".tmp") ++ " && sync"]
    ∧ rename_command dst = ["sh", "-c", "mv " ++ (dst ++ ".tmp") ++ " " ++ dst]
    ∧ dst ++ ".tmp" ≠ dst := by
  obtain ⟨o, w, c, r⟩ := env
  cases o <;> cases w <;> cases c <;> cases r <;>
    simp [write_file_to_container] at h ⊢
  have e1 : "cat > " ++ dst ++ ".tmp && sync" = "cat > " ++ (dst ++ ".tmp") ++ " && sync" := by
    have h1 : (".tmp && sync" : String) = ".tmp" ++ " && sync" := by decide
    rw [h1, ← String.append_assoc, ← String.append_assoc]
  have e2 : "mv " ++ dst ++ ".tmp " ++ dst = "mv " ++ (dst ++ ".tmp") ++ " " ++ dst := by
    have h1 : (".tmp " : String) = ".tmp" ++ " " := by decide
    rw [h1, ← String.append_assoc, ← String.append_assoc]
  refine ⟨by simp [exec_command, e1], by simp [rename_command, e2], ?_⟩
  intro hEq
  have := congrArg (fun s => s.data.length) hEq
  simp [String.data_append] at this

/-- Witness for writeFile_atomic_trace at a concrete successful call. -/
theorem writeFile_atomic_trace_witness :
    (write_file_to_container "/data/cfg.txt" "hello" ⟨true, true, true, true⟩).1
      = some true
    ∧ ("/data/cfg.txt" ++ ".tmp" ≠ "/data/cfg.txt") :=
  ⟨by decide,
   (writeFile_atomic_trace "/data/cfg.txt" "hello" ⟨true, true, true, true⟩
      (by decide)).2.2.2⟩

/-- C3 counterexample: when the first step raises, the function returns the
absent value none, not an explicit boolean failure value. -/
theorem writeFile_returns_none_on_failure :
    (write_file_to_container "/data/cfg.txt" "hello" ⟨false, true, true, true⟩).1 = none
    ∧ (none : Option Bool) ≠ some false
    ∧ (none : Option Bool) ≠ some true := by
  decide

/-- C3 amended: the return value is some true exactly when every step
succeeds, and none (the absent value, falsy to callers) otherwise. -/
theorem writeFile_return_semantics (dst data : String) (env : ExecEnv) :
    (write_file_to_container dst data env).1
      = if env.openRecvOk && env.writeOk && env.closeOk && env.renameOk
        then some true else none := by
  obtain ⟨o, w, c, r⟩ := env
  cases o <;> cases w <;> cases c <;> cases r <;> rfl

/-- Helper: length of the token run contributed by the trailing filters. -/
theorem nameToks_length (fs : List String) : (nameToks fs).length = 3 * fs.length := by
  induction fs with
  | nil => rfl
  | cons f fs ih => simp [nameToks, ih]; omega

/-- Helper: parseAndMore stops without consuming on end of input, a closing
parenthesis, or an -o token. -/
theorem parseAndMore_stop (fuel : Nat) (acc : FExpr) (r : List String)
    (h : r = [] ∨ (∃ s, r = ")" :: s) ∨ (∃ s, r = "-o" :: s)) :
    parseAndMore (fuel + 1) acc r = some (acc, r) := by
  rcases h with rfl | ⟨s, rfl⟩ | ⟨s, rfl⟩ <;> simp [parseAndMore]

/-- Helper: the token run for the remaining filters followed by a closing
parenthesis starts with a stopping token for parseAndMore. -/
theorem nameToks_stop (fs : List String) (t : List String) :
    nameToks fs ++ ")" :: t = []
    ∨ (∃ s, nameToks fs ++ ")" :: t = ")" :: s)
    ∨ (∃ s, nameToks fs ++ ")" :: t = "-o" :: s) := by
  cases fs with
  | nil => exact Or.inr (Or.inl ⟨t, rfl⟩)
  | cons f fs =>
    exact Or.inr (Or.inr ⟨"-name" :: f :: (nameToks fs ++ ")" :: t), by simp [nameToks]⟩)

/-- Helper: parseAtom on a -name primary. -/
theorem parseAtom_name (fuel : Nat) (p : String) (r : List String) :
    parseAtom (fuel + 1) ("-name" :: p :: r) = some (FExpr.nameIs p, r) := by
  simp [parseAtom]

/-- Helper: parseAtom on a -type primary. -/
theorem parseAtom_type (fuel : Nat) (ty : String) (r : List String) :
    parseAtom (fuel + 1) ("-type" :: ty :: r) = some (FExpr.typeIs ty, r) := by
  simp [parseAtom]

/-- Helper: parseAnd on a -name primary followed by a stopping token. -/
theorem parseAnd_name (fuel : Nat) (p : String) (r : List String)
    (h : r = [] ∨ (∃ s, r = ")" :: s) ∨ (∃ s, r = "-o" :: s)) :
    parseAnd (fuel + 2) ("-name" :: p :: r) = some (FExpr.nameIs p, r) := by
  simp only [parseAnd, parseAtom_name]
  exact parseAndMore_stop fuel _ r h

/-- Helper: parseOrMore folds the generated -o -name runs into a left-nested
disjunction, given enough fuel. -/
theorem parseOrMore_names (fs : List String) : ∀ (fuel : Nat) (acc : FExpr)
    (t : List String), 2 * fs.length + 1 ≤ fuel →
    parseOrMore fuel acc (nameToks fs ++ ")" :: t)
      = some (fs.foldl (fun a p => FExpr.disj a (FExpr.nameIs p)) acc, ")" :: t) := by
  induction fs with
  | nil =>
    intro fuel acc t h
    obtain ⟨k, rfl⟩ : ∃ k, fuel = k + 1 := ⟨fuel - 1, by omega⟩
    simp [nameToks, parseOrMore]
  | cons f fs ih =>
    intro fuel acc t h
    simp only [List.length_cons] at h
    obtain ⟨k, rfl⟩ : ∃ k, fuel = (k + 2) + 1 := ⟨fuel - 3, by omega⟩
    have hsh : nameToks (f :: fs) ++ ")" :: t
        = "-o" :: "-name" :: f :: (nameToks fs ++ ")" :: t) := by simp [nameToks]
    rw [hsh]
    simp only [parseOrMore]
    rw [if_pos trivial, parseAnd_name k f _ (nameToks_stop fs t)]
    simp only []
    rw [ih (k + 2) _ t (by omega)]
    simp [List.foldl_cons]

/-- Helper: parseOr on the generated name group body. -/
theorem parseOr_names (f0 : String) (fs : List String) (fuel : Nat)
    (t : List String) (h : 2 * fs.length + 3 ≤ fuel) :
    parseOr fuel ("-name" :: f0 :: (nameToks fs ++ ")" :: t))
      = some (fs.foldl (fun a p => FExpr.disj a (FExpr.nameIs p)) (FExpr.nameIs f0),
              ")" :: t) := by
  obtain ⟨k, rfl⟩ : ∃ k, fuel = (k + 2) + 1 := ⟨fuel - 3, by omega⟩
  simp only [parseOr]
  rw [parseAnd_name k f0 _ (nameToks_stop fs t)]
  simp only []
  exact parseOrMore_names fs (k + 2) _ t (by omega)

/-- Helper: parseAtom on the full parenthesized name group. -/
theorem parseAtom_nameGroup (f0 : String) (fs : List String) (fuel : Nat)
    (t : List String) (h : 2 * fs.length + 4 ≤ fuel) :
    parseAtom fuel ("(" :: "-name" :: f0 :: (nameToks fs ++ ")" :: t))
      = some (fs.foldl (fun a p => FExpr.disj a (FExpr.nameIs p)) (FExpr.nameIs f0),
              t) := by
  obtain ⟨k, rfl⟩ : ∃ k, fuel = k + 1 := ⟨fuel - 1, by omega⟩
  simp only [parseAtom]
  rw [if_pos trivial, parseOr_names f0 fs k t (by omega)]
  simp

/-- Helper: parseOr on the generated type group body. -/
theorem parseOr_types (fuel : Nat) (t : List String) (h : 5 ≤ fuel) :
    parseOr fuel ("-type" :: "f" :: "-o" :: "-type" :: "d" :: ")" :: t)
      = some (FExpr.disj (FExpr.typeIs "f") (FExpr.typeIs "d"), ")" :: t) := by
  obtain ⟨k, rfl⟩ : ∃ k, fuel = k + 5 := ⟨fuel - 5, by omega⟩
  simp [parseOr, parseAnd, parseAtom, parseAndMore, parseOrMore]

/-- Helper: parseAtom on the full parenthesized type group. -/
theorem parseAtom_typeGroup (fuel : Nat) (t : List String) (h : 6 ≤ fuel) :
    parseAtom fuel ("(" :: "-type" :: "f" :: "-o" :: "-type" :: "d" :: ")" :: t)
      = some (FExpr.disj (FExpr.typeIs "f") (FExpr.typeIs "d"), t) := by
  obtain ⟨k, rfl⟩ : ∃ k, fuel = k + 6 := ⟨fuel - 6, by omega⟩
  simp only [parseAtom]
  rw [if_pos trivial, parseOr_types (k + 5) t (by omega)]
  simp

/-- Helper: full parse of the expression tokens generated for a non-empty
filter list: the conjunction of the type disjunction and the name
disjunction, consuming all tokens. -/
theorem parseOr_full (f0 : String) (fs : List String) (fuel : Nat)
    (h : 2 * fs.length + 10 ≤ fuel) :
    parseOr fuel ("(" :: "-type" :: "f" :: "-o" :: "-type" :: "d" :: ")"
        :: "(" :: "-name" :: f0 :: (nameToks fs ++ [")"]))
      = some (FExpr.conj (FExpr.disj (FExpr.typeIs "f") (FExpr.typeIs "d"))
          (fs.foldl (fun a p => FExpr.disj a (FExpr.nameIs p)) (FExpr.nameIs f0)),
          []) := by
  obtain ⟨k, rfl⟩ : ∃ k, fuel = (k + 3) + 1 := ⟨fuel - 4, by omega⟩
  simp only [parseOr, parseAnd]
  rw [parseAtom_typeGroup (k + 2) _ (by omega)]
  simp only []
  have h2 : parseAndMore (k + 2)
      (FExpr.disj (FExpr.typeIs "f") (FExpr.typeIs "d"))
      ("(" :: "-name" :: f0 :: (nameToks fs ++ [")"]))
      = some (FExpr.conj (FExpr.disj (FExpr.typeIs "f") (FExpr.typeIs "d"))
          (fs.foldl (fun a p => FExpr.disj a (FExpr.nameIs p)) (FExpr.nameIs f0)),
          []) := by
    obtain ⟨m, rfl⟩ : ∃ m, k = m + 1 := ⟨k - 1, by omega⟩
    simp only [parseAndMore]
    rw [if_neg (by decide)]
    have h3 : nameToks fs ++ [")"] = nameToks fs ++ ")" :: ([] : List String) := rfl
    rw [h3, parseAtom_nameGroup f0 fs (m + 2) [] (by omega)]
    simp only []
    exact parseAndMore_stop (m + 1) _ [] (Or.inl rfl)
  rw [h2]
  simp [parseOrMore]

/-- Helper: evaluating the left-nested name disjunction is the OR over the
pattern list. -/
theorem evalF_foldl (m : String → String → Bool) (d : Bool) (nm : String)
    (fs : List String) : ∀ acc : FExpr,
    evalF m d nm (fs.foldl (fun a p => FExpr.disj a (FExpr.nameIs p)) acc)
      = (evalF m d nm acc || fs.any (fun p => m p nm)) := by
  induction fs with
  | nil => intro acc; simp
  | cons f fs ih =>
    intro acc
    simp only [List.foldl_cons, List.any_cons]
    rw [ih]
    simp [evalF, Bool.or_assoc]

/-- C7: the find command built by snapshot_bitcoin_datadir selects an entry
under the base directory exactly when the entry matches at least one name
pattern (OR semantics); with no filters it selects everything under
/root/.bitcoin/chain. -/
theorem find_command_or_semantics (chain : String)
    (matchName : String → String → Bool) (isDirE : Bool) (nm : String)
    (filters : List String) :
    findCmdSelects matchName (find_command chain filters) isDirE nm
      = some (filters.isEmpty || filters.any (fun p => matchName p nm)) := by
  cases filters with
  | nil => simp [find_command, findCmdSelects]
  | cons f0 fs =>
    have hcmd : find_command chain (f0 :: fs)
        = "find" :: ("/root/.bitcoin/" ++ chain) ::
          ("(" :: "-type" :: "f" :: "-o" :: "-type" :: "d" :: ")"
            :: "(" :: "-name" :: f0 :: (nameToks fs ++ [")"])) := by
      simp [find_command]
    rw [hcmd]
    have hlen : ("(" :: "-type" :: "f" :: "-o" :: "-type" :: "d" :: ")"
        :: "(" :: "-name" :: f0 :: (nameToks fs ++ [")"])).length
        = 3 * fs.length + 11 := by
      simp [nameToks_length]
    simp only [findCmdSelects]
    rw [hlen, parseOr_full f0 fs _ (by omega)]
    simp only [evalF, evalF_foldl]
    cases isDirE <;> simp [evalF]


/-- Helper: Python str.split never returns an empty piece list. -/
theorem charSplit_ne_nil (sep : Char) (cs : List Char) : charSplit sep cs ≠ [] := by
  induction cs with
  | nil => simp [charSplit]
  | cons c rest ih =>
    simp only [charSplit]
    split
    · simp
    · cases h : charSplit sep rest with
      | nil => simp
      | cons p ps => simp

/-- Helper: no piece returned by charSplit contains the separator. -/
theorem charSplit_no_sep (sep : Char) (cs : List Char) :
    ∀ p ∈ charSplit sep cs, sep ∉ p := by
  induction cs with
  | nil =>
    intro p hp
    simp [charSplit] at hp
    subst hp
    simp
  | cons c rest ih =>
    intro p hp
    simp only [charSplit] at hp
    by_cases hc : c = sep
    · rw [if_pos hc] at hp
      rcases List.mem_cons.mp hp with rfl | h
      · simp
      · exact ih p h
    · rw [if_neg hc] at hp
      cases h : charSplit sep rest with
      | nil => exact absurd h (charSplit_ne_nil sep rest)
      | cons q qs =>
        rw [h] at hp
        rcases List.mem_cons.mp hp with rfl | hmem
        · intro hsep
          rcases List.mem_cons.mp hsep with h1 | hq
          · exact hc h1.symm
          · exact ih q (by rw [h]; exact List.mem_cons_self q qs) hq
        · exact ih p (by rw [h]; exact List.mem_cons.mpr (Or.inr hmem))

/-- Helper: joining components with a slash yields a string whose first
character is the first character of the first component. -/
theorem isabs_join (c : Char) (cs : List Char) (xs : List (List Char))
    (hc : c ≠ '/') :
    isabs (String.mk (joinChars '/' ((c :: cs) :: xs))) = false := by
  cases xs with
  | nil =>
    show isabs (String.mk (c :: cs)) = false
    simp [isabs, hc]
  | cons y ys =>
    show isabs (String.mk ((c :: cs) ++ '/' :: joinChars '/' (y :: ys))) = false
    simp [isabs, hc]

/-- Helper: every kept component of a split absolute path is non-empty and
slash-free. -/
theorem filtered_comp_prop (cs : List Char) (r : List Char)
    (hr : r ∈ (charSplit '/' cs).filter (fun x => x ≠ [])) :
    r ≠ [] ∧ '/' ∉ r := by
  rw [List.mem_filter] at hr
  refine ⟨?_, charSplit_no_sep '/' cs r hr.1⟩
  simpa using hr.2

/-- Helper: the relative component list built by relpath never starts with a
slash once joined. -/
theorem isabs_relparts (k : Nat) (pa : List (List Char)) (i : Nat)
    (hpa : ∀ r ∈ pa, r ≠ [] ∧ '/' ∉ r)
    (hne : List.replicate k ['.', '.'] ++ pa.drop i ≠ []) :
    isabs (String.mk (joinChars '/'
      (List.replicate k ['.', '.'] ++ pa.drop i))) = false := by
  cases k with
  | zero =>
    simp only [List.replicate, List.nil_append] at hne ⊢
    cases hd : pa.drop i with
    | nil => rw [hd] at hne; exact absurd rfl hne
    | cons x xs =>
      have hx : x ∈ pa := List.drop_subset i pa (hd ▸ List.mem_cons_self x xs)
      obtain ⟨hxne, hxs⟩ := hpa x hx
      obtain ⟨c, cs, rfl⟩ : ∃ c cs, x = c :: cs := by
        cases x with
        | nil => exact absurd rfl hxne
        | cons c cs => exact ⟨c, cs, rfl⟩
      have hc : c ≠ '/' := by
        intro hcc
        exact hxs (by rw [hcc] at *; exact List.mem_cons_self _ _)
      exact isabs_join c cs xs hc
  | succ m =>
    rw [List.replicate_succ, List.cons_append]
    exact isabs_join '.' ['.'] _ (by decide)

/-- Helper: the result of the modelled os.path.relpath is never an absolute
path. -/
theorem relpath_not_abs (cwd path start : String) :
    isabs (relpath cwd path start) = false := by
  by_cases h : path = ""
  · rw [relpath, if_pos h]
    decide
  · rw [relpath, if_neg h]
    simp only []
    split
    · decide
    · next hne =>
      exact isabs_relparts _ _ _
        (fun r hr => filtered_comp_prop (abspath cwd path).data r hr) hne

/-- Helper: a concrete evaluation of the modelled relpath against the chain
base directory, validating the translation of the Python path functions. -/
theorem relpath_example :
    relpath "/w" "/root/.bitcoin/regtest/blocks/blk00000.dat"
      "/root/.bitcoin/regtest" = "blocks/blk00000.dat" := by
  decide

/-- C9: the arguments handed to tar after its fixed five-token head are
exactly the relpath of each non-blank find output entry against the chain
base directory, and none of them is an absolute path. -/
theorem tar_paths_relative (chain : String) (file_list : List String)
    (cwd : String) :
    (tar_command chain file_list cwd).drop 5
      = (file_list.filter (fun f => pystrip f ≠ "")).map
          (fun f => relpath cwd f ("/root/.bitcoin/" ++ chain))
    ∧ ((tar_command chain file_list cwd).drop 5).all
        (fun a => !(isabs a)) = true := by
  have hdrop : (tar_command chain file_list cwd).drop 5
      = (file_list.filter (fun f => pystrip f ≠ "")).map
          (fun f => relpath cwd f ("/root/.bitcoin/" ++ chain)) := by
    simp [tar_command]
  refine ⟨hdrop, ?_⟩
  rw [hdrop, List.all_eq_true]
  intro a ha
  rw [List.mem_map] at ha
  obtain ⟨f, hf, rfl⟩ := ha
  simp [relpath_not_abs]


/-- Helper: wait_for_pod_ready consumes the whole bounded event stream and
returns False when no event satisfies the readiness test. -/
theorem wait_ready_none (name : String) (events : List PodM)
    (h : ∀ e ∈ events, readyPred name e = false) :
    wait_for_pod_ready name events = (false, events.length) := by
  induction events with
  | nil => rfl
  | cons e rest ih =>
    have he := h e (List.mem_cons_self e rest)
    simp [wait_for_pod_ready, he,
      ih (fun x hx => h x (List.mem_cons.mpr (Or.inr hx)))]

/-- Helper: wait_for_pod_ready stops at the first satisfying event, having
consumed exactly the events up to and including it. -/
theorem wait_ready_first (name : String) (pre : List PodM) (e : PodM)
    (post : List PodM) (hpre : ∀ x ∈ pre, readyPred name x = false)
    (he : readyPred name e = true) :
    wait_for_pod_ready name (pre ++ e :: post) = (true, pre.length + 1) := by
  induction pre with
  | nil => simp [wait_for_pod_ready, he]
  | cons x xs ih =>
    have hx := hpre x (List.mem_cons_self x xs)
    simp [wait_for_pod_ready, hx,
      ih (fun y hy => hpre y (List.mem_cons.mpr (Or.inr hy)))]

/-- Helper: when at most one element of a list satisfies p, testing q on the
first p-element found equals testing any element for p and q together. -/
theorem find_any_of_unique {α : Type} (p q : α → Bool) (l : List α)
    (h : (l.filter p).length ≤ 1) :
    optTest q (l.find? p) = l.any (fun c => p c && q c) := by
  induction l with
  | nil => rfl
  | cons a l ih =>
    by_cases hp : p a
    · rw [List.find?_cons_of_pos _ hp]
      simp only [optTest, List.any_cons, hp, Bool.true_and]
      have hfil : l.filter p = [] := by
        simp only [List.filter_cons, hp, if_true, List.length_cons] at h
        exact List.length_eq_zero.mp (by omega)
      have hany : l.any (fun c => p c && q c) = false := by
        rw [List.any_eq_false]
        intro x hx
        have hnx : ¬ (p x = true) := by
          intro hpx
          have : x ∈ l.filter p := List.mem_filter.mpr ⟨hx, hpx⟩
          rw [hfil] at this
          exact absurd this (List.not_mem_nil x)
        simp [hnx]
      rw [hany]
      simp
    · rw [List.find?_cons_of_neg _ hp]
      simp only [List.any_cons]
      rw [ih (by simpa only [List.filter_cons, hp, if_false] using h)]
      simp [hp]

/-- Helper: under the platform invariant that a pod carries at most one
condition of type Ready, the per-event test of the code (first Ready
condition is True) coincides with the claim-side test (some Ready condition
is True). -/
theorem readyPred_eq_claim (name : String) (e : PodM)
    (h : ((e.status.conditions.getD []).filter
        (fun c => c.type == "Ready")).length ≤ 1) :
    readyPred name e = readyEventClaim name e := by
  unfold readyPred readyEventClaim
  congr 1
  exact @find_any_of_unique PodCondition (fun c => c.type == "Ready")
    (fun c => c.status == "True") _ h

/-- C5: on event streams whose pods carry at most one Ready condition (the
platform invariant), wait_for_pod_ready returns True, stopping the watch,
exactly at the first event whose pod name matches, whose phase is Running,
and which carries a Ready condition with status True; and it returns False
after consuming the whole bounded stream when no such event occurs. -/
theorem wait_for_pod_ready_spec (name : String) (events : List PodM)
    (huniq : ∀ e ∈ events, ((e.status.conditions.getD []).filter
        (fun c => c.type == "Ready")).length ≤ 1) :
    (∀ pre e post, events = pre ++ e :: post →
        (∀ x ∈ pre, readyEventClaim name x = false) →
        readyEventClaim name e = true →
        wait_for_pod_ready name events = (true, pre.length + 1))
    ∧ ((∀ e ∈ events, readyEventClaim name e = false) →
        wait_for_pod_ready name events = (false, events.length)) := by
  constructor
  · intro pre e post hev hpre he
    subst hev
    apply wait_ready_first
    · intro x hx
      rw [readyPred_eq_claim name x
        (huniq x (List.mem_append.mpr (Or.inl hx)))]
      exact hpre x hx
    · rw [readyPred_eq_claim name e
        (huniq e (List.mem_append.mpr (Or.inr (List.mem_cons_self e post))))]
      exact he
  · intro hall
    apply wait_ready_none
    intro e he
    rw [readyPred_eq_claim name e (huniq e he)]
    exact hall e he

/-- Witness for wait_for_pod_ready_spec at a concrete one-event stream. -/
theorem wait_for_pod_ready_spec_witness :
    wait_for_pod_ready "tank-0"
      [⟨"tank-0", ⟨"Running", some [⟨"Ready", "True"⟩], none⟩⟩] = (true, 1) :=
  (wait_for_pod_ready_spec "tank-0"
      [⟨"tank-0", ⟨"Running", some [⟨"Ready", "True"⟩], none⟩⟩]
      (by decide)).1 [] _ [] rfl (by intro x hx; exact absurd hx (List.not_mem_nil x))
      (by decide)

/-- C4 counterexample: with no pod of the ingress listing containing the
controller substring, wait_for_ingress_controller returns False immediately,
opening no watch at all (second component none), although the bounded event
stream of its configured timeout still held events; so a no-match readiness
wait does not always spend its timeout budget before reporting False. -/
theorem wait_for_ingress_controller_immediate_false :
    wait_for_ingress_controller ["caddy-7c9fd6bbc9"]
      [⟨"caddy-7c9fd6bbc9", ⟨"Running", some [⟨"Ready", "True"⟩], none⟩⟩]
      = (false, none) := by
  decide

/-- C4 amended: wait_for_pod_ready with a name matching no event returns
False only after consuming its entire bounded stream; wait_for_ingress_controller
returns False at once, opening no watch, when no listed pod name contains the
controller substring, and otherwise delegates to wait_for_pod_ready on the
first matching pod. -/
theorem readiness_waits_no_match :
    (∀ (name : String) (events : List PodM),
      (∀ e ∈ events, (e.name == name) = false) →
      wait_for_pod_ready name events = (false, events.length))
    ∧ (∀ (pods : List String) (events : List PodM),
      (∀ p ∈ pods, strContains p ingressSub = false) →
      wait_for_ingress_controller pods events = (false, none))
    ∧ (∀ (pods : List String) (p : String) (events : List PodM),
      pods.find? (fun q => strContains q ingressSub) = some p →
      wait_for_ingress_controller pods events
        = ((wait_for_pod_ready p events).1,
           some (wait_for_pod_ready p events).2)) := by
  refine ⟨?_, ?_, ?_⟩
  · intro name events h
    apply wait_ready_none
    intro e he
    simp [readyPred, h e he]
  · intro pods events h
    have hn : pods.find? (fun p => strContains p ingressSub) = none :=
      List.find?_eq_none.mpr (fun x hx => by simp [h x hx])
    unfold wait_for_ingress_controller
    rw [hn]
  · intro pods p events h
    unfold wait_for_ingress_controller
    rw [h]

/-- Witness for readiness_waits_no_match at concrete inputs. -/
theorem readiness_waits_no_match_witness :
    wait_for_pod_ready "gone"
      [⟨"other", ⟨"Running", some [⟨"Ready", "True"⟩], none⟩⟩] = (false, 1) :=
  (readiness_waits_no_match).1 "gone"
    [⟨"other", ⟨"Running", some [⟨"Ready", "True"⟩], none⟩⟩] (by decide)

/-- C8: wait_for_init skips, without raising, any event for the named pod
whose init container statuses are not yet populated; and when the bounded
stream ends with no running init container observed, it returns False after
logging the timeout message. -/
theorem wait_for_init_spec (pod_name nsName : String) (quiet : Bool) :
    (∀ (e : PodM) (rest : List PodM), (e.name == pod_name) = true →
      initPopulated e = false →
      wait_for_init pod_name nsName quiet (e :: rest)
        = wait_for_init pod_name nsName quiet rest)
    ∧ (∀ events : List PodM,
      (∀ e ∈ events, initReadyEvent pod_name e = false) →
      wait_for_init pod_name nsName false events
        = (false, [initTimeoutMsg pod_name nsName])) := by
  constructor
  · intro e rest hname hpop
    cases hs : e.status.init_container_statuses with
    | none => simp [wait_for_init, hname, hs]
    | some l =>
      have hl : l.isEmpty = true := by
        simp [initPopulated, hs] at hpop
        subst hpop
        rfl
      simp [wait_for_init, hname, hs, hl]
  · intro events hall
    induction events with
    | nil => rfl
    | cons e rest ih =>
      have he := hall e (List.mem_cons_self e rest)
      have ih2 := ih (fun x hx => hall x (List.mem_cons.mpr (Or.inr hx)))
      cases hname : (e.name == pod_name) with
      | false => simp [wait_for_init, hname, ih2]
      | true =>
        cases hs : e.status.init_container_statuses with
        | none => simp [wait_for_init, hname, hs, ih2]
        | some l =>
          cases hl : l.isEmpty with
          | true => simp [wait_for_init, hname, hs, hl, ih2]
          | false =>
            have hany : l.any (fun s => s.running) = false := by
              simp [initReadyEvent, initPopulated, hs, hname, hl] at he
              simp only [List.any_eq_false]
              intro x hx
              simpa using he x hx
            simp [wait_for_init, hname, hs, hl, hany, ih2]

/-- Witness for wait_for_init_spec: the claim scenario, a pod with no init
container statuses reported yet. -/
theorem wait_for_init_spec_witness :
    wait_for_init "alpha" "warnet" false [⟨"alpha", ⟨"Pending", none, none⟩⟩]
      = (false, [initTimeoutMsg "alpha" "warnet"]) :=
  (wait_for_init_spec "alpha" "warnet" false).2
    [⟨"alpha", ⟨"Pending", none, none⟩⟩] (by decide)

/-- C6: when the parsed find output list is empty, the pipeline stops after
the find step with the informational no-match notice: no tar, no copy, no
cleanup, no error print, and a normal None return. -/
theorem snapshot_empty_selection (pod_name chain local_path : String)
    (filters : List String) (nsName cwd : String) (env : SnapEnv)
    (hc : env.clientOk = true) (hp : env.podReadOk = true)
    (hf : env.findOk = true) (he : parseFindOutput env.findChunks = []) :
    snapshot_bitcoin_datadir pod_name chain local_path filters nsName cwd env
      = (PyResult.retNone, [SnapEvent.readPod,
          SnapEvent.execFind (find_command chain filters),
          SnapEvent.printNothing]) := by
  obtain ⟨c, p, f, ch, t, cp, cl⟩ := env
  simp only at hc hp hf he
  subst hc hp hf
  simp [snapshot_bitcoin_datadir, he]

/-- Witness for snapshot_empty_selection at a concrete run with no find
output. -/
theorem snapshot_empty_selection_witness :
    snapshot_bitcoin_datadir "tank-0" "regtest" "./" [] "warnet" "/"
      ⟨true, true, true, [], true, true, true⟩
      = (PyResult.retNone, [SnapEvent.readPod,
          SnapEvent.execFind (find_command "regtest" []),
          SnapEvent.printNothing]) :=
  snapshot_empty_selection "tank-0" "regtest" "./" [] "warnet" "/"
    ⟨true, true, true, [], true, true, true⟩ rfl rfl rfl rfl

/-- C2 counterexample: a run whose kubectl cp copy step fails attempts the
copy but never attempts the cleanup exec: the raise at k8s.py line 417
reaches the catch-all handler before the cleanup at lines 420-430, which is
not in a finally block. -/
theorem snapshot_copy_failure_skips_cleanup :
    ((snapshot_bitcoin_datadir "tank-0" "regtest" "./" [] "warnet" "/"
        ⟨true, true, true,
         ["/root/.bitcoin/regtest\n/root/.bitcoin/regtest/blocks"],
         true, false, true⟩).2.any isRunCopy = true)
    ∧ ((snapshot_bitcoin_datadir "tank-0" "regtest" "./" [] "warnet" "/"
        ⟨true, true, true,
         ["/root/.bitcoin/regtest\n/root/.bitcoin/regtest/blocks"],
         true, false, true⟩).2.any isCleanup = false) := by
  decide

/-- C2 amended: once the client is acquired the function always returns
None, and the cleanup exec is attempted exactly when every earlier step
succeeded (pod lookup, find exec, non-empty parsed file list, tar exec, and
the local copy) — in particular it is attempted regardless of whether the
cleanup exec itself then fails, which never changes the returned outcome. -/
theorem snapshot_cleanup_condition (pod_name chain local_path : String)
    (filters : List String) (nsName cwd : String) (env : SnapEnv)
    (hc : env.clientOk = true) :
    (snapshot_bitcoin_datadir pod_name chain local_path filters nsName cwd env).1
        = PyResult.retNone
    ∧ ((snapshot_bitcoin_datadir pod_name chain local_path filters nsName cwd
          env).2.any isCleanup = true
        ↔ env.podReadOk = true ∧ env.findOk = true
          ∧ (parseFindOutput env.findChunks).isEmpty = false
          ∧ env.tarOk = true ∧ env.copyOk = true) := by
  obtain ⟨c, p, f, ch, t, cp, cl⟩ := env
  simp only at hc
  subst hc
  cases p <;> cases f <;> cases t <;> cases cp <;> cases cl <;>
    cases hE : (parseFindOutput ch).isEmpty <;>
    simp [snapshot_bitcoin_datadir, hE, isCleanup]

/-- Witness for snapshot_cleanup_condition: a run whose cleanup exec fails
still returns None. -/
theorem snapshot_cleanup_condition_witness :
    (snapshot_bitcoin_datadir "tank-0" "regtest" "./" [] "warnet" "/"
        ⟨true, true, true, ["/root/.bitcoin/regtest"], true, true, false⟩).1
      = PyResult.retNone :=
  (snapshot_cleanup_condition "tank-0" "regtest" "./" [] "warnet" "/"
      ⟨true, true, true, ["/root/.bitcoin/regtest"], true, true, false⟩ rfl).1

/-- C10 counterexample: a failure acquiring the client (namespace resolution
or kubeconfig loading at k8s.py lines 332-333, which run before the try
block) propagates out of snapshot_bitcoin_datadir instead of being caught,
so the function does not return None on every failure. -/
theorem snapshot_raises_before_try :
    (snapshot_bitcoin_datadir "tank-0" "regtest" "./" [] "warnet" "/"
        ⟨false, true, true, [], true, true, true⟩).1 = PyResult.raised
    ∧ PyResult.raised ≠ PyResult.retNone := by
  decide

/-- C10 amended: once the client is acquired, every run — including a
nonexistent pod or a failed copy — ends in the single catch-all handler or a
normal path and returns None, indistinguishable to callers; a client
acquisition failure instead propagates. -/
theorem snapshot_return_semantics (pod_name chain local_path : String)
    (filters : List String) (nsName cwd : String) (env : SnapEnv) :
    (env.clientOk = true →
      (snapshot_bitcoin_datadir pod_name chain local_path filters nsName cwd
        env).1 = PyResult.retNone)
    ∧ (env.clientOk = false →
      (snapshot_bitcoin_datadir pod_name chain local_path filters nsName cwd
        env).1 = PyResult.raised) := by
  obtain ⟨c, p, f, ch, t, cp, cl⟩ := env
  cases c with
  | false =>
    exact ⟨fun hc => absurd hc (by simp), fun _ => rfl⟩
  | true =>
    refine ⟨fun _ => ?_, fun hc => absurd hc (by simp)⟩
    cases p <;> cases f <;> cases t <;> cases cp <;> cases cl <;>
      cases hE : (parseFindOutput ch).isEmpty <;>
      simp [snapshot_bitcoin_datadir, hE]

/-- Witness for snapshot_return_semantics: a run against a nonexistent pod
returns None. -/
theorem snapshot_return_semantics_witness :
    (snapshot_bitcoin_datadir "tank-0" "regtest" "./" [] "warnet" "/"
        ⟨true, false, true, [], true, true, true⟩).1 = PyResult.retNone :=
  (snapshot_return_semantics "tank-0" "regtest" "./" [] "warnet" "/"
      ⟨true, false, true, [], true, true, true⟩).1 rfl

end Warnet
